import Mathlib

/-!
Shallow embedding of `Flow-Logs-Processor/solution.py` (class `FlowLogsProcessor`).

File contents are modelled as the list of their lines (for the flow log) or
the list of their CSV rows (for the lookup table and the output file); the
I/O layer itself is out of scope.  Python `dict`s are modelled as
insertion-ordered association lists: an update of an existing key replaces
the value in place (keeping the key's first-seen position), an update of a
fresh key appends at the end — exactly the observable behaviour of a Python
dict.  A function that calls `sys.exit(1)` on some input is modelled with
`Option`, `none` standing for the fatal non-zero exit.
-/

namespace FlowLogs

/-- A CSV row: a list of string fields. -/
abbrev Row := List String

/-- One parsed flow record: `(destination port, protocol token)`,
both taken verbatim from the line (fields 7 and 8, 1-indexed). -/
abbrev FlowRecord := String × String

/-- The join key `(port, lowercased protocol name)`. -/
abbrev LookupKey := String × String

/-- `d.get(k)` of a Python dict: the value at the first (unique) occurrence
of the key, if any. -/
def findD {α β : Type} [DecidableEq α] : List (α × β) → α → Option β
  | [], _ => none
  | (k', v) :: d, k => if k' = k then some v else findD d k

/-- `d.get(k, dflt)` of a Python dict. -/
def getD {α β : Type} [DecidableEq α] (d : List (α × β)) (k : α) (dflt : β) : β :=
  (findD d k).getD dflt

/-- `d[k] = v` on a Python dict: replace in place if the key is present,
append at the end otherwise. -/
def updD {α β : Type} [DecidableEq α] : List (α × β) → α → β → List (α × β)
  | [], k, v => [(k, v)]
  | (k', v') :: d, k, v => if k' = k then (k, v) :: d else (k', v') :: updD d k v

/-- Sum of the values of a counting dict. -/
def sumVals {α : Type} (d : List (α × Nat)) : Nat :=
  (d.map (fun p => p.2)).sum

/-- The class constant `PROTOCOL_MAP` of `FlowLogsProcessor`
(solution.py, lines 13–18). -/
def PROTOCOL_MAP : List (String × String) :=
  [("6", "tcp"), ("17", "udp"), ("1", "icmp")]

/-- Python `line.strip().split()`: split on runs of whitespace,
no empty fields. -/
def splitWs (line : String) : List String :=
  (line.split fun c => c.isWhitespace).filter (fun f => f ≠ "")

/-- The loop body of `process_flow_logs` (solution.py, lines 50–58):
a line with fewer than 8 whitespace-separated fields is skipped with a
warning, otherwise `(fields[6], fields[7])` is appended. -/
def process_flow_logs (lines : List String) : List FlowRecord :=
  lines.foldl
    (fun acc line =>
      let fields := splitWs line
      if fields.length < 8 then acc
      else acc ++ [(fields.getD 6 "", fields.getD 7 "")])
    []

/-- One lookup-table row (solution.py, lines 82–86): a row whose field
count is not exactly 3 is skipped with a warning; otherwise
`(port, protocol.lower()) ↦ tag`. -/
def rowEntry (row : Row) : Option (LookupKey × String) :=
  match row with
  | [port, protocol, tag] => some ((port, protocol.toLower), tag)
  | _ => none

/-- One iteration of the loop of `read_lookup_table`: skip the row or store
`lookup_data[(port, protocol.lower())] = tag`. -/
def lookup_step (acc : List (LookupKey × String)) (row : Row) : List (LookupKey × String) :=
  match rowEntry row with
  | some (k, tag) => updD acc k tag
  | none => acc

/-- The loop of `read_lookup_table` over the body rows (after the header). -/
def lookup_build (body : List Row) : List (LookupKey × String) :=
  body.foldl lookup_step []

/-- `read_lookup_table` (solution.py, lines 70–99) on the list of CSV rows
of the file.  `next(reader)` skips the header row; on a file with no rows
at all it raises `StopIteration`, which the generic `except Exception`
handler turns into `sys.exit(1)` — modelled by `none`. -/
def read_lookup_table (rows : List Row) : Option (List (LookupKey × String)) :=
  match rows with
  | [] => none
  | _ :: body => some (lookup_build body)

/-- `self.PROTOCOL_MAP.get(protocol_num, protocol_num).lower()`
(solution.py, line 114). -/
def protocol_name (protocol_num : String) : String :=
  (getD PROTOCOL_MAP protocol_num protocol_num).toLower

/-- The body of the `for` loop of `match_flowdata_tags`
(solution.py, lines 112–122), acting on the pair of counting dicts
`(tag_count, portprotocol_count)`. -/
def match_step (lookup_table : List (LookupKey × String))
    (st : List (String × Nat) × List (LookupKey × Nat)) (rec : FlowRecord) :
    List (String × Nat) × List (LookupKey × Nat) :=
  let key : LookupKey := (rec.1, protocol_name rec.2)
  let portprotocol_count := updD st.2 key (getD st.2 key 0 + 1)
  let tag := getD lookup_table key "Untagged"
  let tag_count := updD st.1 tag (getD st.1 tag 0 + 1)
  (tag_count, portprotocol_count)

/-- `match_flowdata_tags` (solution.py, lines 101–125): fold the loop body
over the flow data, starting from two empty dicts. -/
def match_flowdata_tags (flow_data : List FlowRecord)
    (lookup_table : List (LookupKey × String)) :
    List (String × Nat) × List (LookupKey × Nat) :=
  flow_data.foldl (match_step lookup_table) ([], [])

/-- `write_results_to_csv` (solution.py, lines 127–146) as the sequence of
rows passed to `writer.writerow`, in order. -/
def write_results_to_csv (tag_counts : List (String × Nat))
    (portprotocol_counts : List (LookupKey × Nat)) : List Row :=
  let rows : List Row := [["Tag Counts:"]]
  let rows := rows ++ [["Tag", "Count"]]
  let rows := tag_counts.foldl (fun r e => r ++ [[e.1, toString e.2]]) rows
  let rows := rows ++ [[]]
  let rows := rows ++ [["Port/Protocol Combination Counts:"]]
  let rows := rows ++ [["Port", "Protocol", "Count"]]
  let rows := portprotocol_counts.foldl
    (fun r e => r ++ [[e.1.1, e.1.2, toString e.2]]) rows
  rows

end FlowLogs

namespace FlowLogs

/-! Helper lemmas about ASCII lowercasing. -/

theorem char_toNat_ofNat (n : Nat) (h : n.isValidChar) : (Char.ofNat n).toNat = n := by
  rw [Char.ofNat, dif_pos h]
  rfl

theorem char_toLower_def (c : Char) :
    c.toLower = if c.toNat ≥ 65 ∧ c.toNat ≤ 90 then Char.ofNat (c.toNat + 32) else c := rfl

theorem char_toLower_toLower (c : Char) : c.toLower.toLower = c.toLower := by
  by_cases h : c.toNat ≥ 65 ∧ c.toNat ≤ 90
  · have hv : (c.toNat + 32).isValidChar := Or.inl (by omega)
    rw [char_toLower_def c, if_pos h, char_toLower_def, char_toNat_ofNat _ hv,
      if_neg (by omega)]
  · rw [char_toLower_def c, if_neg h, char_toLower_def, if_neg h]

theorem char_toLower_fix {c d : Char} (hd : ¬(d.toNat ≥ 97 ∧ d.toNat ≤ 122))
    (h : c.toLower = d) : c = d := by
  by_cases hc : c.toNat ≥ 65 ∧ c.toNat ≤ 90
  · exfalso
    rw [char_toLower_def c, if_pos hc] at h
    have := char_toNat_ofNat (c.toNat + 32) (Or.inl (by omega))
    rw [h] at this
    omega
  · rwa [char_toLower_def c, if_neg hc] at h

theorem map_toLower_fix : ∀ (m l : List Char),
    (∀ d ∈ l, ¬(d.toNat ≥ 97 ∧ d.toNat ≤ 122)) → m.map Char.toLower = l → m = l
  | [], _, _, h => by simpa using h.symm
  | c :: m, l, hl, h => by
    match l, h with
    | _ :: l', h =>
      obtain ⟨h1, h2⟩ := List.cons.injEq .. ▸ h
      have hc := char_toLower_fix (hl _ (h1 ▸ List.mem_cons_self ..)) h1
      exact hc ▸ (map_toLower_fix m l' (fun d hd => hl d (List.mem_cons_of_mem _ hd)) h2) ▸ rfl

theorem string_toLower_data (s : String) : s.toLower = ⟨s.data.map Char.toLower⟩ :=
  String.map_eq Char.toLower s

theorem string_toLower_toLower (s : String) : s.toLower.toLower = s.toLower := by
  rw [string_toLower_data s, string_toLower_data, List.map_map]
  exact congrArg String.mk (List.map_congr_left fun c _ => char_toLower_toLower c)

theorem string_toLower_fix (s t : String)
    (ht : ∀ d ∈ t.data, ¬(d.toNat ≥ 97 ∧ d.toNat ≤ 122)) (h : s.toLower = t) : s = t := by
  rw [string_toLower_data s] at h
  have hdata : s.data.map Char.toLower = t.data := by
    cases t
    injection h
  have := map_toLower_fix s.data t.data ht hdata
  cases s
  cases t
  exact congrArg String.mk this

/-- Rewrite `splitWs` to ground, kernel-reducible list operations. -/
theorem splitWs_eq (line : String) :
    splitWs line =
      ((List.splitOnP Char.isWhitespace line.data).map String.mk).filter (fun f => f ≠ "") := by
  rw [splitWs, String.split_of_valid]

/-! Helper lemmas about the dict model. -/

theorem findD_updD {α β : Type} [DecidableEq α] (d : List (α × β)) (k k' : α) (v : β) :
    findD (updD d k v) k' = if k = k' then some v else findD d k' := by
  induction d with
  | nil => rfl
  | cons p d ih =>
    obtain ⟨a, b⟩ := p
    show findD (if a = k then (k, v) :: d else (a, b) :: updD d k v) k' = _
    by_cases h1 : a = k
    · rw [if_pos h1]
      show (if k = k' then some v else findD d k') = _
      by_cases h2 : k = k'
      · rw [if_pos h2, if_pos h2]
      · rw [if_neg h2, if_neg h2]
        show findD d k' = findD ((a, b) :: d) k'
        show findD d k' = if a = k' then some b else findD d k'
        rw [if_neg (fun hak => h2 (h1 ▸ hak))]
    · rw [if_neg h1]
      show (if a = k' then some b else findD (updD d k v) k') = _
      by_cases h3 : a = k'
      · rw [if_pos h3, if_neg (fun hkk => h1 (h3.trans hkk.symm))]
        show some b = findD ((a, b) :: d) k'
        show some b = if a = k' then some b else findD d k'
        rw [if_pos h3]
      · rw [if_neg h3, ih]
        by_cases h2 : k = k'
        · rw [if_pos h2, if_pos h2]
        · rw [if_neg h2, if_neg h2]
          show findD d k' = if a = k' then some b else findD d k'
          rw [if_neg h3]

theorem getD_updD {α β : Type} [DecidableEq α] (d : List (α × β)) (k k' : α) (v : β)
    (dflt : β) :
    getD (updD d k v) k' dflt = if k = k' then v else getD d k' dflt := by
  rw [getD, findD_updD]
  by_cases h : k = k'
  · rw [if_pos h, if_pos h]
    rfl
  · rw [if_neg h, if_neg h]
    rfl

theorem sumVals_updD_incr {α : Type} [DecidableEq α] (d : List (α × Nat)) (k : α) :
    sumVals (updD d k (getD d k 0 + 1)) = sumVals d + 1 := by
  induction d with
  | nil => rfl
  | cons p d ih =>
    obtain ⟨a, b⟩ := p
    by_cases h : a = k
    · subst h
      show sumVals (if a = a then (a, getD ((a, b) :: d) a 0 + 1) :: d else _) = _
      rw [if_pos rfl]
      have hg : getD ((a, b) :: d) a 0 = b := by
        show (if a = a then some b else findD d a).getD 0 = b
        rw [if_pos rfl]
        rfl
      rw [hg]
      show (b + 1) + sumVals d = (b + sumVals d) + 1
      omega
    · show sumVals (if a = k then _ else (a, b) :: updD d k (getD ((a, b) :: d) k 0 + 1)) = _
      rw [if_neg h]
      have hg : getD ((a, b) :: d) k 0 = getD d k 0 := by
        show (if a = k then some b else findD d k).getD 0 = _
        rw [if_neg h]
        rfl
      rw [hg]
      show b + sumVals (updD d k (getD d k 0 + 1)) = (b + sumVals d) + 1
      rw [ih]
      omega

/-! Closed forms of the folds. -/

theorem process_flow_logs_from (lines : List String) :
    ∀ acc : List FlowRecord,
      lines.foldl
        (fun acc line =>
          let fields := splitWs line
          if fields.length < 8 then acc
          else acc ++ [(fields.getD 6 "", fields.getD 7 "")]) acc =
      acc ++ (lines.filter fun l => 8 ≤ (splitWs l).length).map
        (fun l => ((splitWs l).getD 6 "", (splitWs l).getD 7 "")) := by
  induction lines with
  | nil => intro acc; simp
  | cons l ls ih =>
    intro acc
    by_cases h : (splitWs l).length < 8
    · have hf : decide (8 ≤ (splitWs l).length) = false := by
        simp
        omega
      simp only [List.foldl_cons, List.filter_cons, hf, if_pos h]
      exact ih acc
    · have hf : decide (8 ≤ (splitWs l).length) = true := by
        simp
        omega
      simp only [List.foldl_cons, List.filter_cons, hf, if_neg h, if_pos trivial,
        List.map_cons, ih (acc ++ [((splitWs l).getD 6 "", (splitWs l).getD 7 "")])]
      simp

theorem process_flow_logs_closed (lines : List String) :
    process_flow_logs lines =
      (lines.filter fun l => 8 ≤ (splitWs l).length).map
        (fun l => ((splitWs l).getD 6 "", (splitWs l).getD 7 "")) := by
  rw [process_flow_logs, process_flow_logs_from]
  simp

theorem sumVals_match_step_fst (L : List (LookupKey × String))
    (st : List (String × Nat) × List (LookupKey × Nat)) (r : FlowRecord) :
    sumVals (match_step L st r).1 = sumVals st.1 + 1 :=
  sumVals_updD_incr st.1 (getD L (r.1, protocol_name r.2) "Untagged")

theorem sumVals_match_step_snd (L : List (LookupKey × String))
    (st : List (String × Nat) × List (LookupKey × Nat)) (r : FlowRecord) :
    sumVals (match_step L st r).2 = sumVals st.2 + 1 :=
  sumVals_updD_incr st.2 (r.1, protocol_name r.2)

theorem sumVals_match_fold (L : List (LookupKey × String)) :
    ∀ (fd : List FlowRecord) (st : List (String × Nat) × List (LookupKey × Nat)),
      sumVals (fd.foldl (match_step L) st).1 = sumVals st.1 + fd.length ∧
      sumVals (fd.foldl (match_step L) st).2 = sumVals st.2 + fd.length := by
  intro fd
  induction fd with
  | nil => intro st; exact ⟨rfl, rfl⟩
  | cons r fd ih =>
    intro st
    constructor
    · rw [List.foldl_cons, (ih (match_step L st r)).1, sumVals_match_step_fst]
      simp only [List.length_cons]
      omega
    · rw [List.foldl_cons, (ih (match_step L st r)).2, sumVals_match_step_snd]
      simp only [List.length_cons]
      omega

theorem foldl_rows_tag (tc : List (String × Nat)) :
    ∀ init : List Row,
      tc.foldl (fun r e => r ++ [[e.1, toString e.2]]) init =
        init ++ tc.map (fun e => [e.1, toString e.2]) := by
  induction tc with
  | nil => intro init; simp
  | cons e tc ih =>
    intro init
    rw [List.foldl_cons, ih (init ++ [[e.1, toString e.2]])]
    simp

theorem foldl_rows_pp (ppc : List (LookupKey × Nat)) :
    ∀ init : List Row,
      ppc.foldl (fun r e => r ++ [[e.1.1, e.1.2, toString e.2]]) init =
        init ++ ppc.map (fun e => [e.1.1, e.1.2, toString e.2]) := by
  induction ppc with
  | nil => intro init; simp
  | cons e ppc ih =>
    intro init
    rw [List.foldl_cons, ih (init ++ [[e.1.1, e.1.2, toString e.2]])]
    simp

/-! Helper lemmas about the lookup-table loader. -/

theorem rowEntry_eq_none (row : Row) (h : row.length ≠ 3) : rowEntry row = none := by
  match row with
  | [] => rfl
  | [_] => rfl
  | [_, _] => rfl
  | [_, _, _] => exact absurd rfl h
  | _ :: _ :: _ :: _ :: _ => rfl

theorem lookup_step_none (acc : List (LookupKey × String)) (row : Row)
    (h : rowEntry row = none) : lookup_step acc row = acc := by
  rw [lookup_step, h]

theorem lookup_step_some (acc : List (LookupKey × String)) (row : Row)
    (k : LookupKey) (tag : String) (h : rowEntry row = some (k, tag)) :
    lookup_step acc row = updD acc k tag := by
  rw [lookup_step, h]

theorem findD_lookup_fold_isSome :
    ∀ (body : List Row) (acc : List (LookupKey × String)) (k : LookupKey),
      (findD (body.foldl lookup_step acc) k).isSome = true ↔
        (findD acc k).isSome = true ∨ k ∈ (body.filterMap rowEntry).map (fun e => e.1) := by
  intro body
  induction body with
  | nil =>
    intro acc k
    simp
  | cons row rest ih =>
    intro acc k
    rw [List.foldl_cons]
    cases hre : rowEntry row with
    | none =>
      rw [lookup_step_none acc row hre]
      simpa [List.filterMap_cons, hre] using ih acc k
    | some e =>
      obtain ⟨k0, v⟩ := e
      rw [lookup_step_some acc row k0 v hre, ih (updD acc k0 v) k, findD_updD,
        List.filterMap_cons, hre]
      by_cases hk : k0 = k
      · subst hk
        simp
      · rw [if_neg hk]
        simp only [List.map_cons, List.mem_cons]
        constructor
        · rintro (h | h)
          · exact Or.inl h
          · exact Or.inr (Or.inr h)
        · rintro (h | h | h)
          · exact Or.inl h
          · exact absurd h.symm hk
          · exact Or.inr h

theorem findD_lookup_build_last (body : List Row) (k : LookupKey) :
    findD (lookup_build body) k =
      (((body.filterMap rowEntry).filter fun e => e.1 = k).getLast?).map (fun e => e.2) := by
  rw [lookup_build]
  induction body using List.reverseRecOn with
  | nil => rfl
  | append_singleton body row ih =>
    rw [List.foldl_append, List.foldl_cons, List.foldl_nil]
    cases hre : rowEntry row with
    | none =>
      rw [lookup_step_none _ row hre, List.filterMap_append]
      simp only [List.filterMap_cons, hre, List.filterMap_nil, List.append_nil]
      exact ih
    | some e =>
      obtain ⟨k0, v⟩ := e
      rw [lookup_step_some _ row k0 v hre, findD_updD, List.filterMap_append]
      simp only [List.filterMap_cons, hre, List.filterMap_nil, List.filter_append]
      by_cases hk : k0 = k
      · subst hk
        simp [List.getLast?_concat]
      · rw [if_neg hk]
        simp only [List.filter_cons, List.filter_nil]
        rw [if_neg (by simpa using hk)]
        simpa using ih

/-! Helper lemmas about one aggregation step and protocol normalization. -/

theorem getD_match_step_fst (L : List (LookupKey × String))
    (tc : List (String × Nat)) (ppc : List (LookupKey × Nat)) (p q t0 : String) :
    getD (match_step L (tc, ppc) (p, q)).1 t0 0 =
      getD tc t0 0 + (if t0 = getD L (p, protocol_name q) "Untagged" then 1 else 0) := by
  show getD (updD tc (getD L (p, protocol_name q) "Untagged")
      (getD tc (getD L (p, protocol_name q) "Untagged") 0 + 1)) t0 0 = _
  rw [getD_updD]
  by_cases h : t0 = getD L (p, protocol_name q) "Untagged"
  · rw [if_pos h.symm, if_pos h, h]
  · rw [if_neg (fun he => h he.symm), if_neg h, Nat.add_zero]

theorem getD_PROTOCOL_MAP_none (t : String) (h6 : t ≠ "6") (h17 : t ≠ "17")
    (h1 : t ≠ "1") : getD PROTOCOL_MAP t t = t := by
  rw [getD]
  show (if ("6" : String) = t then some "tcp"
    else if ("17" : String) = t then some "udp"
    else if ("1" : String) = t then some "icmp" else none).getD t = t
  rw [if_neg (fun h => h6 h.symm), if_neg (fun h => h17 h.symm), if_neg (fun h => h1 h.symm)]
  rfl

theorem protocol_name_of_unrecognized (t : String) (h : findD PROTOCOL_MAP t = none) :
    protocol_name t = t.toLower := by
  rw [protocol_name, getD, h]
  rfl

theorem findD_PROTOCOL_MAP_eq_none (t : String) (h6 : t ≠ "6") (h17 : t ≠ "17")
    (h1 : t ≠ "1") : findD PROTOCOL_MAP t = none := by
  show (if ("6" : String) = t then some "tcp"
    else if ("17" : String) = t then some "udp"
    else if ("1" : String) = t then some "icmp" else none) = none
  rw [if_neg (fun h => h6 h.symm), if_neg (fun h => h17 h.symm), if_neg (fun h => h1 h.symm)]

theorem protocol_name_6 : protocol_name "6" = "tcp" := by
  rw [protocol_name, show getD PROTOCOL_MAP "6" "6" = "tcp" by decide, string_toLower_data]
  decide

theorem protocol_name_17 : protocol_name "17" = "udp" := by
  rw [protocol_name, show getD PROTOCOL_MAP "17" "17" = "udp" by decide, string_toLower_data]
  decide

theorem protocol_name_1 : protocol_name "1" = "icmp" := by
  rw [protocol_name, show getD PROTOCOL_MAP "1" "1" = "icmp" by decide, string_toLower_data]
  decide

theorem protocol_name_tcp : protocol_name "tcp" = "tcp" := by
  rw [protocol_name, show getD PROTOCOL_MAP "tcp" "tcp" = "tcp" by decide, string_toLower_data]
  decide

theorem protocol_name_udp : protocol_name "udp" = "udp" := by
  rw [protocol_name, show getD PROTOCOL_MAP "udp" "udp" = "udp" by decide, string_toLower_data]
  decide

theorem protocol_name_icmp : protocol_name "icmp" = "icmp" := by
  rw [protocol_name, show getD PROTOCOL_MAP "icmp" "icmp" = "icmp" by decide,
    string_toLower_data]
  decide

theorem protocol_name_TCP : protocol_name "TCP" = "tcp" := by
  rw [protocol_name, show getD PROTOCOL_MAP "TCP" "TCP" = "TCP" by decide, string_toLower_data]
  decide

theorem protocol_name_idem (t : String) : protocol_name (protocol_name t) = protocol_name t := by
  by_cases h6 : t = "6"
  · rw [h6, protocol_name_6, protocol_name_tcp]
  by_cases h17 : t = "17"
  · rw [h17, protocol_name_17, protocol_name_udp]
  by_cases h1 : t = "1"
  · rw [h1, protocol_name_1, protocol_name_icmp]
  rw [protocol_name_of_unrecognized t (findD_PROTOCOL_MAP_eq_none t h6 h17 h1)]
  have hl6 : t.toLower ≠ "6" := fun h => h6 (string_toLower_fix t "6" (by decide) h)
  have hl17 : t.toLower ≠ "17" := fun h => h17 (string_toLower_fix t "17" (by decide) h)
  have hl1 : t.toLower ≠ "1" := fun h => h1 (string_toLower_fix t "1" (by decide) h)
  rw [protocol_name_of_unrecognized t.toLower (findD_PROTOCOL_MAP_eq_none _ hl6 hl17 hl1),
    string_toLower_toLower]

/-! The claims. -/

/-- C1: for every flow log, the sum of all values in `tag_count` equals the
sum of all values in `portprotocol_count`, and both equal the number of
input lines that split into at least 8 whitespace-separated fields. -/
theorem C1_sum_invariant (lines : List String) (lookup_table : List (LookupKey × String)) :
    sumVals (match_flowdata_tags (process_flow_logs lines) lookup_table).1 =
      sumVals (match_flowdata_tags (process_flow_logs lines) lookup_table).2 ∧
    sumVals (match_flowdata_tags (process_flow_logs lines) lookup_table).1 =
      (lines.filter fun l => 8 ≤ (splitWs l).length).length := by
  have hlen : (process_flow_logs lines).length =
      (lines.filter fun l => 8 ≤ (splitWs l).length).length := by
    rw [process_flow_logs_closed, List.length_map]
  have h := sumVals_match_fold lookup_table (process_flow_logs lines) ([], [])
  rw [match_flowdata_tags]
  constructor
  · rw [h.1, h.2]
    rfl
  · rw [h.1]
    show 0 + (process_flow_logs lines).length = _
    rw [hlen]
    omega

/-- C2: one aggregation step adds 1 to the count of exactly one tag — the
tag found for the key `(dst_port, protocol_name)` in the lookup table, or
the sentinel "Untagged" when the key is absent — and leaves every other
tag count unchanged. -/
theorem C2_untagged_fallback (L : List (LookupKey × String)) (tc : List (String × Nat))
    (ppc : List (LookupKey × Nat)) (p q t0 : String) :
    (getD (match_step L (tc, ppc) (p, q)).1 t0 0 =
      getD tc t0 0 + (if t0 = getD L (p, protocol_name q) "Untagged" then 1 else 0)) ∧
    (findD L (p, protocol_name q) = none →
      getD L (p, protocol_name q) "Untagged" = "Untagged") ∧
    (∀ tg, findD L (p, protocol_name q) = some tg →
      getD L (p, protocol_name q) "Untagged" = tg) := by
  refine ⟨getD_match_step_fst L tc ppc p q t0, ?_, ?_⟩
  · intro h
    rw [getD, h]
    rfl
  · intro tg h
    rw [getD, h]
    rfl

/-- C2 witness: with the lookup table `{("25","tcp") ↦ "email"}`, the record
`("9999","17")` falls back to "Untagged" and the record `("25","6")` gets
tag "email". -/
theorem C2_untagged_fallback_witness :
    getD [((("25" : String), ("tcp" : String)), ("email" : String))]
      ("9999", protocol_name "17") "Untagged" = "Untagged" ∧
    getD [((("25" : String), ("tcp" : String)), ("email" : String))]
      ("25", protocol_name "6") "Untagged" = "email" := by
  constructor
  · apply (C2_untagged_fallback [(("25", "tcp"), "email")] [] [] "9999" "17" "Untagged").2.1
    rw [protocol_name_17]
    decide
  · apply (C2_untagged_fallback [(("25", "tcp"), "email")] [] [] "25" "6" "Untagged").2.2 "email"
    rw [protocol_name_6]
    decide

/-- C3: protocol normalization maps "6" to "tcp", "17" to "udp", "1" to
"icmp", passes any unrecognized token through lowercased, is idempotent,
and "6", "TCP" and "tcp" all normalize to "tcp". -/
theorem C3_protocol_normalization :
    protocol_name "6" = "tcp" ∧ protocol_name "17" = "udp" ∧ protocol_name "1" = "icmp" ∧
    (∀ t, findD PROTOCOL_MAP t = none → protocol_name t = t.toLower) ∧
    (∀ t, protocol_name (protocol_name t) = protocol_name t) ∧
    protocol_name "TCP" = "tcp" ∧ protocol_name "tcp" = "tcp" :=
  ⟨protocol_name_6, protocol_name_17, protocol_name_1, protocol_name_of_unrecognized,
    protocol_name_idem, protocol_name_TCP, protocol_name_tcp⟩

/-- C3 witness: "gre" is not a recognized numeric code, so it passes
through lowercased. -/
theorem C3_protocol_normalization_witness :
    protocol_name "gre" = ("gre" : String).toLower :=
  C3_protocol_normalization.2.2.2.1 "gre" (by decide)

/-- C4: a flow log line with fewer than 8 whitespace-separated fields
contributes no flow record, and the remaining lines are processed exactly
as if the short line were not there. -/
theorem C4_short_line_skipped (l1 l2 : List String) (line : String)
    (h : (splitWs line).length < 8) :
    process_flow_logs (l1 ++ line :: l2) = process_flow_logs (l1 ++ l2) := by
  rw [process_flow_logs_closed, process_flow_logs_closed, List.filter_append,
    List.filter_append, List.filter_cons]
  have hf : decide (8 ≤ (splitWs line).length) = false := by
    simp
    omega
  rw [hf]
  simp

/-- C4 witness: a 5-field line between an empty prefix and one valid line
is dropped without disturbing the valid line. -/
theorem C4_short_line_skipped_witness :
    (splitWs "10.0.0.1 443 25 6 10").length < 8 ∧
    process_flow_logs
        ([] ++ "10.0.0.1 443 25 6 10" ::
          ["2 123 eni-a 10.0.0.1 10.0.0.2 443 25 6 10 840 11 12 ACCEPT OK"]) =
      process_flow_logs ([] ++ ["2 123 eni-a 10.0.0.1 10.0.0.2 443 25 6 10 840 11 12 ACCEPT OK"]) := by
  have h : (splitWs "10.0.0.1 443 25 6 10").length < 8 := by
    rw [splitWs_eq]
    decide
  exact ⟨h, C4_short_line_skipped []
    ["2 123 eni-a 10.0.0.1 10.0.0.2 443 25 6 10 840 11 12 ACCEPT OK"]
    "10.0.0.1 443 25 6 10" h⟩

/-- C5: loading a lookup table (header plus body) builds the dict of the
body rows, and the value stored for any key is the tag of the LAST body
row (in file order) whose `(port, protocol.lower())` equals that key —
later duplicate rows overwrite earlier ones. -/
theorem C5_last_occurrence_wins (header : Row) (body : List Row) (key : LookupKey) :
    read_lookup_table (header :: body) = some (lookup_build body) ∧
    findD (lookup_build body) key =
      (((body.filterMap rowEntry).filter fun e => e.1 = key).getLast?).map (fun e => e.2) :=
  ⟨rfl, findD_lookup_build_last body key⟩

/-- C6: lookup rows whose field count is not exactly 3 contribute nothing
and do not abort loading; the built mapping has an entry for a key exactly
when some 3-field row yields that key, the key being
`(port, protocol.toLower)` with the port verbatim. -/
theorem C6_malformed_rows_skipped (l1 l2 : List Row) (row : Row) (body : List Row)
    (k : LookupKey) :
    (row.length ≠ 3 → lookup_build (l1 ++ row :: l2) = lookup_build (l1 ++ l2)) ∧
    ((findD (lookup_build body) k).isSome = true ↔
      k ∈ (body.filterMap rowEntry).map (fun e => e.1)) ∧
    (∀ port protocol tag, rowEntry [port, protocol, tag] = some ((port, protocol.toLower), tag)) := by
  refine ⟨?_, ?_, fun _ _ _ => rfl⟩
  · intro h
    rw [lookup_build, lookup_build, List.foldl_append, List.foldl_append, List.foldl_cons,
      lookup_step_none _ row (rowEntry_eq_none row h)]
  · rw [lookup_build]
    simpa [findD] using findD_lookup_fold_isSome body [] k

/-- C6 witness: a 2-field row contributes nothing. -/
theorem C6_malformed_rows_skipped_witness :
    ([("25" : String), "tcp"] : Row).length ≠ 3 ∧
    lookup_build ([] ++ ([("25" : String), "tcp"] : Row) :: []) = lookup_build ([] ++ []) := by
  have h : ([("25" : String), "tcp"] : Row).length ≠ 3 := by decide
  exact ⟨h, (C6_malformed_rows_skipped [] [] ["25", "tcp"] [] ("25", "tcp")).1 h⟩

/-- C7: extraction keeps exactly the lines with at least 8
whitespace-separated fields, in order, and from each keeps the pair of
fields at 0-indexed positions 6 and 7 (1-indexed 7 and 8) verbatim. -/
theorem C7_extraction_order (lines : List String) :
    process_flow_logs lines =
      (lines.filter fun l => 8 ≤ (splitWs l).length).map
        (fun l => ((splitWs l).getD 6 "", (splitWs l).getD 7 "")) :=
  process_flow_logs_closed lines

/-- C8: the writer always emits the section header, the `Tag`/`Count`
column header, the tag rows in insertion order, a blank separator, the
second section header, the `Port`/`Protocol`/`Count` column header, and
the port/protocol rows in insertion order; with both tables empty the two
section headers and two column headers are still emitted. -/
theorem C8_writer_layout (tc : List (String × Nat)) (ppc : List (LookupKey × Nat)) :
    write_results_to_csv tc ppc =
      [["Tag Counts:"], ["Tag", "Count"]] ++ tc.map (fun e => [e.1, toString e.2]) ++
      [[], ["Port/Protocol Combination Counts:"], ["Port", "Protocol", "Count"]] ++
      ppc.map (fun e => [e.1.1, e.1.2, toString e.2]) ∧
    write_results_to_csv [] [] =
      [["Tag Counts:"], ["Tag", "Count"], [], ["Port/Protocol Combination Counts:"],
        ["Port", "Protocol", "Count"]] := by
  constructor
  · simp only [write_results_to_csv]
    rw [foldl_rows_tag, foldl_rows_pp]
    simp
  · rfl

/-- C9: the per-record error branch of `match_flowdata_tags` is dead code
in the model: every step of the loop body is a total function, so each
record always adds exactly one increment to each of the two count tables
and is never skipped. -/
theorem C9_step_total (L : List (LookupKey × String))
    (st : List (String × Nat) × List (LookupKey × Nat)) (r : FlowRecord) :
    sumVals (match_step L st r).1 = sumVals st.1 + 1 ∧
    sumVals (match_step L st r).2 = sumVals st.2 + 1 :=
  ⟨sumVals_match_step_fst L st r, sumVals_match_step_snd L st r⟩

/-- C10: a lookup file with no rows at all is fatal (skipping the header of
an empty file raises, and the generic handler exits non-zero), while a file
with only a header row yields the empty mapping. -/
theorem C10_empty_lookup_fatal :
    read_lookup_table [] = none ∧ ∀ header : Row, read_lookup_table [header] = some [] :=
  ⟨rfl, fun _ => rfl⟩

end FlowLogs
